import Mathlib

/-!
Verification of the JSON extraction core of `cv-main.py` (session-file
curve extraction): the tolerant document splitter, the recursive array
candidate collector, the value normalizer, the axis pairing engine and
the dataset assembler.  Every definition below is a shallow embedding of
the corresponding Python function, keeping its name where Lean allows.
-/

set_option maxHeartbeats 1000000

namespace CvPlot

/-- A JSON value as Python's `json` module produces it: `null`, booleans,
numbers (modelled as rationals), strings, arrays and objects (association
lists with distinct keys, in insertion order). -/
inductive JVal where
  | null
  | bool (b : Bool)
  | num (q : Rat)
  | str (s : String)
  | arr (xs : List JVal)
  | obj (fs : List (String × JVal))
deriving Repr

/-- The Python exceptions the extraction pipeline can raise. -/
inductive PyErr where
  | attributeError
  | typeError
deriving Repr, DecidableEq

/-- Key lookup in a JSON object (Python `d[k]` / `k in d`); keys are unique
so first-match lookup agrees with Python dictionaries. -/
def dictLookup (fs : List (String × JVal)) (k : String) : Option JVal :=
  match fs with
  | [] => none
  | (k', v) :: rest => if k' = k then some v else dictLookup rest k

/-- Python `item.get(k, dflt)`: raises `AttributeError` when `item` is not
a dict. -/
def pyGet (item : JVal) (k : String) (dflt : JVal) : Except PyErr JVal :=
  match item with
  | .obj fs => .ok ((dictLookup fs k).getD dflt)
  | _ => .error .attributeError

/-- Total variant of `pyGet` used only to state results about lists all of
whose elements are objects. -/
def pyGetD (item : JVal) (k : String) : JVal :=
  match item with
  | .obj fs => (dictLookup fs k).getD (.num 0)
  | _ => .num 0

/-- Python `isinstance(v, (int, float))`.  Python booleans are integers,
so a `bool` passes this test. -/
def isNumLike : JVal → Bool
  | .num _ => true
  | .bool _ => true
  | _ => false

/-- Is the value a JSON object? -/
def isObjB : JVal → Bool
  | .obj _ => true
  | _ => false

/-- Python `isinstance(v, (dict, list))`. -/
def isContainer : JVal → Bool
  | .obj _ => true
  | .arr _ => true
  | _ => false

/-- The Value Normalizer `extract_values_from_list`: bare numbers (or
booleans, which Python counts as numbers) are returned unchanged; an array
whose first element is a dict is projected through the first of the wrapper
fields `V`, `y`, `v` present in that first element, `item.get` defaulting a
missing field to `0` and raising `AttributeError` on a non-dict element;
anything else yields `[]`. -/
def extract_values_from_list (data_list : List JVal) : Except PyErr (List JVal) :=
  match data_list with
  | [] => .ok []
  | first :: _ =>
    if isNumLike first then .ok data_list
    else
      match first with
      | .obj fs =>
        if (dictLookup fs "V").isSome then data_list.mapM (fun item => pyGet item "V" (.num 0))
        else if (dictLookup fs "y").isSome then data_list.mapM (fun item => pyGet item "y" (.num 0))
        else if (dictLookup fs "v").isSome then data_list.mapM (fun item => pyGet item "v" (.num 0))
        else .ok []
      | _ => .ok []

/-- Python `s.lower()` (ASCII case folding suffices for the keys and unit
symbols the source compares). -/
def pyLower (s : String) : String :=
  String.mk (s.data.map Char.toLower)

/-- Is `needle` a contiguous substring of `hay` (Python `needle in hay`)? -/
def charsContain (needle : List Char) : List Char → Bool
  | [] => needle.isEmpty
  | c :: t => needle.isPrefixOf (c :: t) || charsContain needle t

/-- Python `needle in hay` on strings. -/
def strContains (hay needle : String) : Bool :=
  charsContain needle.data hay.data

/-- Python `obj["Unit"].get("Symbol", "").lower()`: default `""` when
missing, `AttributeError` when the stored value is not a string. -/
def lowerStrField (ufs : List (String × JVal)) (k : String) : Except PyErr String :=
  match (dictLookup ufs k).getD (.str "") with
  | .str s => .ok (pyLower s)
  | _ => .error .attributeError

/-- Axis role inferred from a `Unit` sibling field (lines 41-47 of the
source): `"potential"`, `"current"` or `"unknown"`. -/
def unitRole (fs : List (String × JVal)) : Except PyErr String :=
  match dictLookup fs "Unit" with
  | some (.obj ufs) => do
    let symbol ← lowerStrField ufs "Symbol"
    let quantity ← lowerStrField ufs "BaseQuantity"
    if symbol = "v" || strContains quantity "potential" || strContains quantity "voltage" then
      .ok "potential"
    else if symbol = "a" || strContains quantity "current" then
      .ok "current"
    else
      .ok "unknown"
  | _ => .ok "unknown"

/-- Role refinement from a key name (lines 51-54): used only when the
inherited role is still `"unknown"`. -/
def keyRole (k : String) : String :=
  let k_low := pyLower k
  if strContains k_low "x" || strContains k_low "potential" then "potential"
  else if strContains k_low "y" || strContains k_low "current" then "current"
  else "unknown"

/-- An Array Candidate as built by `recursive_search_arrays` (the Python
dict `{"type": ..., "data": ..., "length": ..., "key": ...}`). -/
structure Candidate where
  type : String
  data : List JVal
  length : Nat
  key : String
deriving Repr

/-- The fixed set of known value-holder key names (line 60). -/
def knownValueKeys : List String :=
  ["m_values", "values", "x", "y", "xValues", "yValues"]

/-- Candidate emitted for one `(key, value)` pair when the value is a long
enough array (lines 59-68). -/
def emitCandidate (item_type k : String) (v : JVal) : Except PyErr (List Candidate) :=
  match v with
  | .arr xs =>
    if xs.length > 5 && (knownValueKeys.contains k || item_type != "unknown") then do
      let clean_data ← extract_values_from_list xs
      if clean_data.length > 5 then
        .ok [⟨item_type, clean_data, clean_data.length, k⟩]
      else
        .ok []
    else
      .ok []
  | _ => .ok []

mutual

/-- The Array Candidate Collector `recursive_search_arrays` (lines 36-69).
The `context_key` parameter exists in the source with default `""` but is
never read. -/
def recursive_search_arrays (obj : JVal) (context_key : String) :
    Except PyErr (List Candidate) :=
  match obj with
  | .obj fs => do
    let current_type ← unitRole fs
    searchFields current_type fs
  | _ => .ok []

/-- The `for k, v in obj.items()` loop body of `recursive_search_arrays`
(lines 49-68): recursion results are appended before the pair's own
candidate, field by field in object order. -/
def searchFields (current_type : String) (fs : List (String × JVal)) :
    Except PyErr (List Candidate) :=
  match fs with
  | [] => .ok []
  | (k, v) :: rest => do
    let item_type := if current_type = "unknown" then keyRole k else current_type
    let sub ← if isContainer v then recursive_search_arrays v k else .ok []
    let own ← emitCandidate item_type k v
    let tail ← searchFields current_type rest
    .ok (sub ++ own ++ tail)

end

/-- Python `max(candidates, key=lambda x: x['length'])` over a non-empty
list presented as head plus tail: keeps the earliest candidate among ties
and replaces only on a strictly greater length. -/
def pyMaxLen (c0 : Candidate) (l : List Candidate) : Candidate :=
  l.foldl (fun best c => if c.length > best.length then c else best) c0

/-- Distinct `length` values of the candidates, in first-encounter order
(the keys of the Python `by_length` dict). -/
def lengthKeys (cs : List Candidate) : List Nat :=
  cs.foldl (fun acc c => if acc.contains c.length then acc else acc ++ [c.length]) []

/-- Insertion into a descending-sorted list of naturals. -/
def insertDesc (n : Nat) : List Nat → List Nat
  | [] => [n]
  | m :: t => if n ≥ m then n :: m :: t else m :: insertDesc n t

/-- Python `sorted(keys, reverse=True)`. -/
def sortDesc (l : List Nat) : List Nat :=
  l.foldr insertDesc []

/-- The Python `is not` resolution inside the fallback: candidates appended
to `found_arrays` are distinct dict objects, so object identity coincides
with list position; this finds the first position differing from `i`. -/
def firstOtherIdx (group : List Candidate) (i : Nat) : Option Candidate :=
  match (List.range group.length).find? (fun j => j ≠ i) with
  | some j => group.get? j
  | none => none

/-- One pass of the fallback loop over the length groups, longest first
(lines 89-100): returns the replacement for `(best_x, best_y)`. -/
def fallbackLoop (cs : List Candidate) (bx bY : List JVal) :
    List Nat → List JVal × List JVal
  | [] => (bx, bY)
  | l :: rest =>
    let group := cs.filter (fun c => c.length = l)
    if group.length ≥ 2 then
      let xIdx := group.findIdx? (fun item => strContains (pyLower item.key) "x")
      let yIdx := group.findIdx? (fun item => strContains (pyLower item.key) "y")
      match xIdx, yIdx with
      | none, none =>
        match group with
        | c0 :: c1 :: _ => (c0.data, c1.data)
        | _ => fallbackLoop cs bx bY rest
      | some xi, none =>
        match group.get? xi, firstOtherIdx group xi with
        | some xc, some yc => (xc.data, yc.data)
        | _, _ => fallbackLoop cs bx bY rest
      | none, some yi =>
        match group.get? yi, firstOtherIdx group yi with
        | some yc, some xc => (xc.data, yc.data)
        | _, _ => fallbackLoop cs bx bY rest
      | some xi, some yi =>
        match group.get? xi, group.get? yi with
        | some xc, some yc => (xc.data, yc.data)
        | _, _ => fallbackLoop cs bx bY rest
    else
      fallbackLoop cs bx bY rest

/-- The Axis Pairing Engine on a candidate list (lines 74-101 of
`smart_extract_curve`, everything after the collector call). -/
def pairCandidates (candidates : List Candidate) : List JVal × List JVal :=
  let potentials := candidates.filter (fun c => c.type == "potential")
  let currents := candidates.filter (fun c => c.type == "current")
  let best_x := match potentials with
    | [] => []
    | c :: rest => (pyMaxLen c rest).data
  let best_y := match currents with
    | [] => []
    | c :: rest => (pyMaxLen c rest).data
  if best_x.isEmpty || best_y.isEmpty then
    fallbackLoop candidates best_x best_y (sortDesc (lengthKeys candidates))
  else
    (best_x, best_y)

/-- `smart_extract_curve` (lines 71-101): collector then pairing engine. -/
def smart_extract_curve (curve_obj : JVal) : Except PyErr (List JVal × List JVal) := do
  let candidates ← recursive_search_arrays curve_obj ""
  .ok (pairCandidates candidates)

/-- An abstract `json.JSONDecoder().raw_decode`: given the decoded text and
a start offset, either one JSON value plus the offset just past it, or
failure.  A successful decode consumes at least one character (a JSON value
is never empty), which is what makes the splitter loop terminate. -/
structure Decoder where
  decode : List Char → Nat → Option (JVal × Nat)
  advances : ∀ c p v p', decode c p = some (v, p') → p < p'

/-- Number of leading whitespace characters. -/
def countWs : List Char → Nat
  | [] => 0
  | c :: t => if c.isWhitespace then countWs t + 1 else 0

/-- The inner `while pos < len(content) and content[pos].isspace()` loop
(line 111): the position after skipping whitespace. -/
def skipWs (c : List Char) (p : Nat) : Nat :=
  p + countWs (c.drop p)

/-- The Tolerant Document Splitter loop (lines 107-117), with explicit fuel
`c.length + 1 - p`, always sufficient because a successful decode advances
the position. -/
def splitGo (d : Decoder) (c : List Char) : Nat → Nat → List JVal
  | 0, _ => []
  | fuel + 1, p =>
    if c.length ≤ p then []
    else
      let q := skipWs c p
      if c.length ≤ q then []
      else
        match d.decode c q with
        | none => []
        | some (v, p') => v :: splitGo d c fuel p'

/-- The Tolerant Document Splitter: all JSON documents decoded from the
front of the buffer, stopping at the first undecodable remainder. -/
def splitDocuments (d : Decoder) (c : List Char) : List JVal :=
  splitGo d c (c.length + 1) 0

/-- Relation `Splits d c p vs`: starting at offset `p`, the buffer consists of the
whitespace-separated JSON documents `vs` (each one decodable by `d` after
skipping whitespace) followed by a remainder that is exhausted or not valid
JSON.  This is the shape "N valid, whitespace-separated JSON documents
followed by arbitrary non-JSON bytes" of the specification, with validity
meant as decodability by the decoder. -/
inductive Splits (d : Decoder) (c : List Char) : Nat → List JVal → Prop where
  | stop (p : Nat)
      (h : c.length ≤ p ∨ c.length ≤ skipWs c p ∨ d.decode c (skipWs c p) = none) :
      Splits d c p []
  | more (p p' : Nat) (v : JVal) (vs : List JVal)
      (hlt : skipWs c p < c.length)
      (hdec : d.decode c (skipWs c p) = some (v, p'))
      (hrest : Splits d c p' vs) :
      Splits d c p (v :: vs)

/-- Python `str(v)` as used by the f-string of line 136.  Faithful for the
scalar values that occur as titles; the rendering of containers (which
Python would print with their own repr) is abbreviated, no claim exercises
it. -/
def pyStr : JVal → String
  | .str s => s
  | .bool true => "True"
  | .bool false => "False"
  | .null => "None"
  | .num q => if q.den = 1 then toString q.num else toString q.num ++ "/" ++ toString q.den
  | .arr _ => "[...]"
  | .obj _ => "\x7b...\x7d"

/-- Python `file.name.rsplit('.', 1)[0]` on the character list: everything
before the last dot, or the whole name if there is no dot. -/
def beforeLastDot : List Char → List Char
  | [] => []
  | c :: t =>
    if t.contains '.' then c :: beforeLastDot t
    else if c = '.' then []
    else c :: t

/-- Python `file.name.rsplit('.', 1)[0]` on strings. -/
def fileStem (name : String) : String :=
  String.mk (beforeLastDot name.data)

/-- Python iteration `for x in v`: lists yield their elements, strings
their characters (as one-character strings), dicts their keys; other
values raise `TypeError`. -/
def pyIter : JVal → Except PyErr (List JVal)
  | .arr xs => .ok xs
  | .str s => .ok (s.data.map (fun ch => .str (String.mk [ch])))
  | .obj fs => .ok (fs.map (fun kv => .str kv.1))
  | _ => .error .typeError

/-- The dataset name built at lines 134-137: the file stem, then `-{title}`
when the measurement list has more than one entry, then `-C{c_idx+1}` when
the curve list has more than one entry. -/
def buildName (stemS : String) (title : JVal) (mlen clen c_idx : Nat) : String :=
  let name := stemS
  let name := if mlen > 1 then name ++ "-" ++ pyStr title else name
  if clen > 1 then name ++ "-C" ++ toString (c_idx + 1) else name

/-- One curve dataset: the truncated potential and current columns of the
`pd.DataFrame({'V': ..., 'I': ...})` of line 138. -/
abbrev Datasets := List (String × (List JVal × List JVal))

/-- Python dict assignment `datasets[name] = ...`: replace in place when
the key exists, append otherwise. -/
def dictInsert (m : Datasets) (k : String) (v : List JVal × List JVal) : Datasets :=
  match m with
  | [] => [(k, v)]
  | (k', v') :: rest => if k' = k then (k, v) :: rest else (k', v') :: dictInsert rest k v

/-- The `for c_idx, curve in enumerate(curves)` loop (lines 130-138),
threading the datasets dict and stopping at the first uncaught
exception, which is reported alongside the datasets built so far. -/
def curveLoop (stemS : String) (title : JVal) (mlen clen : Nat) :
    List JVal → Nat → Datasets → Datasets × Option PyErr
  | [], _, ds => (ds, none)
  | curve :: rest, c_idx, ds =>
    match smart_extract_curve curve with
    | .error e => (ds, some e)
    | .ok (x, y) =>
      let ds' :=
        if x.length > 0 && y.length > 0 then
          let min_len := min x.length y.length
          dictInsert ds (buildName stemS title mlen clen c_idx)
            (x.take min_len, y.take min_len)
        else ds
      curveLoop stemS title mlen clen rest (c_idx + 1) ds'

/-- The `for meas in measurements` loop (lines 126-138). -/
def measLoop (stemS : String) (mlen : Nat) :
    List JVal → Datasets → Datasets × Option PyErr
  | [], ds => (ds, none)
  | m :: rest, ds =>
    match m with
    | .obj mfs =>
      let title := (dictLookup mfs "title").getD ((dictLookup mfs "Title").getD (.str ""))
      let curvesV := (dictLookup mfs "curves").getD ((dictLookup mfs "Curves").getD (.arr []))
      (match pyIter curvesV with
       | .error e => (ds, some e)
       | .ok curves =>
         match curveLoop stemS title mlen curves.length curves 0 ds with
         | (ds', some e) => (ds', some e)
         | (ds', none) => measLoop stemS mlen rest ds')
    | _ => measLoop stemS mlen rest ds

/-- Locating the measurement list in a root object (lines 121-124):
`measurements`, else `Measurements`, else the root itself as a single
synthetic measurement when a `curves`/`Curves` key exists, else empty. -/
def measurementsOf (rfs : List (String × JVal)) : Except PyErr (List JVal) :=
  match dictLookup rfs "measurements" with
  | some v => pyIter v
  | none =>
    match dictLookup rfs "Measurements" with
    | some v => pyIter v
    | none =>
      if (dictLookup rfs "curves").isSome || (dictLookup rfs "Curves").isSome then
        .ok [.obj rfs]
      else
        .ok []

/-- The `for root_obj in all_json_objects` loop (lines 119-138). -/
def rootLoop (fileName : String) : List JVal → Datasets → Datasets × Option PyErr
  | [], ds => (ds, none)
  | r :: rest, ds =>
    match r with
    | .obj rfs =>
      (match measurementsOf rfs with
       | .error e => (ds, some e)
       | .ok ms =>
         match measLoop (fileStem fileName) ms.length ms ds with
         | (ds', some e) => (ds', some e)
         | (ds', none) => rootLoop fileName rest ds')
    | _ => rootLoop fileName rest ds

/-- The file-level entry point `parse_pssession` (lines 103-140): split the decoded buffer into root
JSON values, assemble datasets, and catch any exception at the file level,
keeping the datasets built before it. -/
def parse_pssession (d : Decoder) (fileName : String) (content : List Char) : Datasets :=
  (rootLoop fileName (splitDocuments d content) []).1

/-- Python `data_pool.update(d)`: assign every entry of `d` into the pool. -/
def dictUpdate (pool d : Datasets) : Datasets :=
  d.foldl (fun acc kv => dictInsert acc kv.1 kv.2) pool

/-- The upload-batch driver loop over session files (lines 263-268,
restricted to the `.pssession`/`.json` branch, the spreadsheet path being
outside the extraction core): each file's datasets are merged into the
shared pool, one file after the other. -/
def processFiles (d : Decoder) (files : List (String × List Char)) : Datasets :=
  files.foldl (fun pool f => dictUpdate pool (parse_pssession d f.1 f.2)) []

/-- A decoder that decodes the whole remaining buffer as the fixed value
`v` when probed at offset 0: a convenient concrete `Decoder` instance for
end-to-end examples with a single root document. -/
def constDecoder (v : JVal) : Decoder where
  decode c p := if p = 0 ∧ 0 < c.length then some (v, c.length) else none
  advances := by
    intro c p w p' h
    dsimp at h
    split at h
    · rename_i hc
      cases h
      omega
    · cases h

/-- A tiny concrete decoder recognising the JSON documents `true` and
`null`, used to exercise the splitter loop on concrete buffers. -/
def tfDecoder : Decoder where
  decode c p :=
    if ['t', 'r', 'u', 'e'].isPrefixOf (c.drop p) then some (.bool true, p + 4)
    else if ['n', 'u', 'l', 'l'].isPrefixOf (c.drop p) then some (.null, p + 4)
    else none
  advances := by
    intro c p v p' h
    dsimp at h
    split at h
    · cases h
      omega
    · split at h
      · cases h
        omega
      · cases h

/-! ### Concrete inputs used by the claims -/

/-- Shorthand for a natural-number JSON value. -/
def jn (i : Nat) : JVal := .num i

/-- A 10-element numeric JSON array. -/
def arrA : JVal := .arr [jn 1, jn 2, jn 3, jn 4, jn 5, jn 6, jn 7, jn 8, jn 9, jn 10]

/-- A second 10-element numeric JSON array. -/
def arrB : JVal :=
  .arr [jn 11, jn 12, jn 13, jn 14, jn 15, jn 16, jn 17, jn 18, jn 19, jn 20]

/-- The elements of `arrA`. -/
def arrAVals : List JVal := [jn 1, jn 2, jn 3, jn 4, jn 5, jn 6, jn 7, jn 8, jn 9, jn 10]

/-- The elements of `arrB`. -/
def arrBVals : List JVal :=
  [jn 11, jn 12, jn 13, jn 14, jn 15, jn 16, jn 17, jn 18, jn 19, jn 20]

/-- The curve object of the specification's primary-strategy example. -/
def c2Curve : JVal :=
  .obj [("xData", .obj [("m_values",
            .arr [.num 0.1, .num 0.2, .num 0.3, .num 0.4, .num 0.5, .num 0.6]),
          ("Unit", .obj [("Symbol", .str "V"), ("BaseQuantity", .str "Potential")])]),
        ("yData", .obj [("m_values", .arr [jn 1, jn 2, jn 3, jn 4, jn 5, jn 6]),
          ("Unit", .obj [("Symbol", .str "A"), ("BaseQuantity", .str "Current")])])]

/-- The potential column of `c2Curve`. -/
def xVals : List JVal := [.num 0.1, .num 0.2, .num 0.3, .num 0.4, .num 0.5, .num 0.6]

/-- The current column of `c2Curve`. -/
def yVals : List JVal := [jn 1, jn 2, jn 3, jn 4, jn 5, jn 6]

/-- The potential candidate collected from `c2Curve`. -/
def potCand : Candidate := ⟨"potential", xVals, 6, "m_values"⟩

/-- The current candidate collected from `c2Curve`. -/
def curCand : Candidate := ⟨"current", yVals, 6, "m_values"⟩

/-- A wrapper-object array whose seventh element is not an object: the
Value Normalizer raises `AttributeError` on it. -/
def mixed7 : List JVal :=
  [.obj [("V", jn 1)], .obj [("V", jn 2)], .obj [("V", jn 3)], .obj [("V", jn 4)],
   .obj [("V", jn 5)], .obj [("V", jn 6)], .str "oops"]

/-- A curve whose only array makes the Value Normalizer raise. -/
def badCurve : JVal := .obj [("m_values", .arr mixed7)]

/-- Root object of the `run1.pssession` end-to-end example: one
measurement titled `CV1` with one successfully pairing curve. -/
def run1Root : JVal :=
  .obj [("measurements", .arr [.obj [("title", .str "CV1"), ("curves", .arr [c2Curve])]])]

/-- A measurement with two successfully pairing curves. -/
def twoCurveMeas (t : String) : JVal :=
  .obj [("title", .str t),
        ("curves", .arr [c2Curve, .obj [("m_values", arrA), ("values", arrB)]])]

/-- Root object with two measurements of two curves each. -/
def root4 : JVal := .obj [("measurements", .arr [twoCurveMeas "M1", twoCurveMeas "M2"])]

/-- Root whose synthetic measurement has a good curve followed by a curve
that raises. -/
def goodThenBadRoot : JVal := .obj [("curves", .arr [c2Curve, badCurve])]

/-- Root whose synthetic measurement has the raising curve first. -/
def badThenGoodRoot : JVal := .obj [("curves", .arr [badCurve, c2Curve])]

/-! ### Helper lemmas -/

theorem skipWs_ge (c : List Char) (p : Nat) : p ≤ skipWs c p :=
  Nat.le_add_right p (countWs (c.drop p))

theorem splitGo_of_splits (d : Decoder) (c : List Char) :
    ∀ {p : Nat} {vs : List JVal}, Splits d c p vs →
      ∀ fuel : Nat, c.length + 1 - p ≤ fuel → splitGo d c fuel p = vs := by
  intro p vs h
  induction h with
  | stop p h =>
    intro fuel hf
    cases fuel with
    | zero => simp [splitGo]
    | succ f =>
      by_cases hp : c.length ≤ p
      · simp [splitGo, hp]
      · by_cases hq : c.length ≤ skipWs c p
        · simp [splitGo, hp, hq]
        · rcases h with h | h | h
          · exact absurd h hp
          · exact absurd h hq
          · simp [splitGo, hp, hq, h]
  | more p p' v vs hlt hdec hrest ih =>
    intro fuel hf
    have hple : p ≤ skipWs c p := skipWs_ge c p
    have hp : p < c.length := lt_of_le_of_lt hple hlt
    cases fuel with
    | zero => omega
    | succ f =>
      have hadv : skipWs c p < p' := d.advances c (skipWs c p) v p' hdec
      have hfr : c.length + 1 - p' ≤ f := by omega
      simp only [splitGo, hdec]
      rw [if_neg (by omega), if_neg (by omega)]
      rw [ih f hfr]

theorem pyMaxLen_mem : ∀ (l : List Candidate) (c0 : Candidate), pyMaxLen c0 l ∈ c0 :: l := by
  intro l
  induction l with
  | nil => intro c0; simp [pyMaxLen]
  | cons c t ih =>
    intro c0
    have hrec : pyMaxLen c0 (c :: t) = pyMaxLen (if c.length > c0.length then c else c0) t := rfl
    rw [hrec]
    by_cases hc : c.length > c0.length
    · rw [if_pos hc]
      rcases List.mem_cons.mp (ih c) with h | h
      · simp [h]
      · simp [List.mem_cons, h]
    · rw [if_neg hc]
      rcases List.mem_cons.mp (ih c0) with h | h
      · simp [h]
      · simp [List.mem_cons, h]

theorem pyMaxLen_le :
    ∀ (l : List Candidate) (c0 x : Candidate), x ∈ c0 :: l →
      x.length ≤ (pyMaxLen c0 l).length := by
  intro l
  induction l with
  | nil =>
    intro c0 x hx
    rcases List.mem_cons.mp hx with h | h
    · subst h; exact Nat.le_refl _
    · cases h
  | cons c t ih =>
    intro c0 x hx
    have hrec : pyMaxLen c0 (c :: t) = pyMaxLen (if c.length > c0.length then c else c0) t := rfl
    rw [hrec]
    set b := if c.length > c0.length then c else c0 with hb
    have hc0b : c0.length ≤ b.length := by
      rw [hb]; split <;> omega
    have hcb : c.length ≤ b.length := by
      rw [hb]; split <;> omega
    have hbmax : b.length ≤ (pyMaxLen b t).length :=
      ih b b (List.mem_cons_self b t)
    rcases List.mem_cons.mp hx with h | h
    · subst h; exact le_trans hc0b hbmax
    · rcases List.mem_cons.mp h with h | h
      · subst h; exact le_trans hcb hbmax
      · exact ih b x (List.mem_cons_of_mem b h)

/-! ### Claim theorems -/

/-- C1.  For every byte buffer consisting of whitespace-separated JSON
documents `vs` decodable by the decoder, followed by a remainder that is
exhausted or not valid JSON (in particular, for a buffer whose first
non-whitespace bytes are not valid JSON, `vs = []`), the Tolerant Document
Splitter returns exactly `vs`, in document order, and never an error. -/
theorem splitter_returns_documents (d : Decoder) (c : List Char) (vs : List JVal)
    (h : Splits d c 0 vs) : splitDocuments d c = vs :=
  splitGo_of_splits d c h (c.length + 1) (by omega)

/-- Witness for C1: the buffer `"true null ?"` consists of the two JSON
documents `true` and `null` followed by non-JSON bytes, and the splitter
returns exactly those two values; the buffer `"?"` starts with invalid
JSON and the splitter returns `[]`. -/
theorem splitter_returns_documents_witness :
    Splits tfDecoder ("true null ?".data) 0 [.bool true, .null] ∧
      splitDocuments tfDecoder ("true null ?".data) = [.bool true, .null] ∧
      Splits tfDecoder ("?".data) 0 [] ∧
      splitDocuments tfDecoder ("?".data) = [] := by
  have h1 : Splits tfDecoder ("true null ?".data) 0 [.bool true, .null] :=
    Splits.more 0 4 (.bool true) [.null] (by decide) rfl
      (Splits.more 4 9 (.null) [] (by decide) rfl
        (Splits.stop 9 (Or.inr (Or.inr rfl))))
  have h2 : Splits tfDecoder ("?".data) 0 [] :=
    Splits.stop 0 (Or.inr (Or.inr rfl))
  exact ⟨h1, splitter_returns_documents tfDecoder ("true null ?".data) _ h1,
         h2, splitter_returns_documents tfDecoder ("?".data) _ h2⟩

/-- C2.  For every candidate list whose potential-role sublist is `p :: ps`
and whose current-role sublist is `c :: cs`, provided the primary
selections carry data, the Axis Pairing Engine returns the data of the
greatest-length potential candidate and of the greatest-length current
candidate (earliest among ties, as Python's `max`); and on the
specification's example curve the result is
`potential = [0.1, ..., 0.6], current = [1, ..., 6]`. -/
theorem axis_pairing_primary_selects_longest
    (cands : List Candidate) (p c : Candidate) (ps cs : List Candidate)
    (hp : cands.filter (fun x => x.type == "potential") = p :: ps)
    (hc : cands.filter (fun x => x.type == "current") = c :: cs)
    (hx : (pyMaxLen p ps).data ≠ [])
    (hy : (pyMaxLen c cs).data ≠ []) :
    pairCandidates cands = ((pyMaxLen p ps).data, (pyMaxLen c cs).data) ∧
      pyMaxLen p ps ∈ cands ∧ (pyMaxLen p ps).type = "potential" ∧
      (∀ q ∈ cands, q.type = "potential" → q.length ≤ (pyMaxLen p ps).length) ∧
      pyMaxLen c cs ∈ cands ∧ (pyMaxLen c cs).type = "current" ∧
      (∀ q ∈ cands, q.type = "current" → q.length ≤ (pyMaxLen c cs).length) ∧
      smart_extract_curve c2Curve = .ok (xVals, yVals) := by
  have hpm : pyMaxLen p ps ∈ p :: ps := pyMaxLen_mem ps p
  have hcm : pyMaxLen c cs ∈ c :: cs := pyMaxLen_mem cs c
  have hpm' : pyMaxLen p ps ∈ cands := List.mem_of_mem_filter (hp ▸ hpm)
  have hcm' : pyMaxLen c cs ∈ cands := List.mem_of_mem_filter (hc ▸ hcm)
  have hpt : (pyMaxLen p ps).type = "potential" := by
    have := List.of_mem_filter (hp ▸ hpm)
    simpa using this
  have hct : (pyMaxLen c cs).type = "current" := by
    have := List.of_mem_filter (hc ▸ hcm)
    simpa using this
  refine ⟨?_, hpm', hpt, ?_, hcm', hct, ?_, rfl⟩
  · unfold pairCandidates
    rw [hp, hc]
    simp only
    rw [if_neg]
    simp only [Bool.or_eq_true, List.isEmpty_iff, not_or]
    exact ⟨hx, hy⟩
  · intro q hq hqt
    have hqf : q ∈ cands.filter (fun x => x.type == "potential") :=
      List.mem_filter.mpr ⟨hq, by simp [hqt]⟩
    rw [hp] at hqf
    exact pyMaxLen_le ps p q hqf
  · intro q hq hqt
    have hqf : q ∈ cands.filter (fun x => x.type == "current") :=
      List.mem_filter.mpr ⟨hq, by simp [hqt]⟩
    rw [hc] at hqf
    exact pyMaxLen_le cs c q hqf

/-- Witness for C2: the candidate list collected from the example curve
has one potential and one current candidate, and the engine pairs their
data. -/
theorem axis_pairing_primary_witness :
    [potCand, curCand].filter (fun x => x.type == "potential") = potCand :: [] ∧
      [potCand, curCand].filter (fun x => x.type == "current") = curCand :: [] ∧
      (pyMaxLen potCand []).data ≠ [] ∧ (pyMaxLen curCand []).data ≠ [] ∧
      pairCandidates [potCand, curCand] = (xVals, yVals) ∧
      smart_extract_curve c2Curve = .ok (xVals, yVals) := by
  have h := axis_pairing_primary_selects_longest [potCand, curCand] potCand curCand [] []
    rfl rfl (by simp [pyMaxLen, potCand, xVals]) (by simp [pyMaxLen, curCand, yVals])
  exact ⟨rfl, rfl, by simp [pyMaxLen, potCand, xVals], by simp [pyMaxLen, curCand, yVals],
         h.1, h.2.2.2.2.2.2.2⟩

/-- Counterexample to C3: on a curve with two unlabeled 10-element arrays
under the keys `arr1` and `arr2` and no unit metadata, the collector emits
no candidates at all (the keys are not known value-holder names and no role
is inferable), so the pipeline returns two empty sequences — pairing fails
rather than pairing them first-as-X/second-as-Y. -/
theorem fallback_unlabeled_keys_counterexample :
    smart_extract_curve (.obj [("arr1", arrA), ("arr2", arrB)]) = .ok ([], []) ∧
      (Except.ok (([], []) : List JVal × List JVal) : Except PyErr (List JVal × List JVal)) ≠
        .ok (arrAVals, arrBVals) := by
  constructor
  · rfl
  · intro h
    have : ([] : List JVal) = arrAVals := (congrArg Prod.fst (Except.ok.inj h))
    simp [arrAVals] at this

/-- C3 as amended: two unlabeled equal-length candidates whose keys contain
neither `x` nor `y` are paired first-as-X/second-as-Y by the fallback
strategy — but only candidates the collector actually emits reach it, which
for unit-free arrays requires keys from the known value-holder set; with the
keys `m_values` and `values` the pipeline pairs the two 10-element arrays
first-as-X/second-as-Y, while with `arr1`/`arr2` it fails. -/
theorem fallback_pairs_known_keys (c1 c2 : Candidate)
    (h1 : c1.type = "unknown") (h2 : c2.type = "unknown")
    (hlen : c1.length = c2.length)
    (hk1x : strContains (pyLower c1.key) "x" = false)
    (hk2x : strContains (pyLower c2.key) "x" = false)
    (hk1y : strContains (pyLower c1.key) "y" = false)
    (hk2y : strContains (pyLower c2.key) "y" = false) :
    pairCandidates [c1, c2] = (c1.data, c2.data) ∧
      smart_extract_curve (.obj [("m_values", arrA), ("values", arrB)]) =
        .ok (arrAVals, arrBVals) := by
  refine ⟨?_, rfl⟩
  unfold pairCandidates
  have hf1 : List.filter (fun c => c.type == "potential") [c1, c2] = [] := by
    simp [List.filter, h1, h2]
  have hf2 : List.filter (fun c => c.type == "current") [c1, c2] = [] := by
    simp [List.filter, h1, h2]
  rw [hf1, hf2]
  simp only [List.isEmpty_nil, Bool.true_or, if_pos]
  have hkeys : lengthKeys [c1, c2] = [c1.length] := by
    simp [lengthKeys, List.foldl, hlen]
  rw [hkeys]
  have hsort : sortDesc [c1.length] = [c1.length] := rfl
  rw [hsort]
  unfold fallbackLoop
  have hgroup : List.filter (fun c => c.length = c1.length) [c1, c2] = [c1, c2] := by
    simp [List.filter, hlen]
  simp only [decide_eq_true_eq] at hgroup ⊢
  rw [hgroup]
  have hxi : List.findIdx? (fun item => strContains (pyLower item.key) "x") [c1, c2] = none := by
    simp [List.findIdx?, hk1x, hk2x]
  have hyi : List.findIdx? (fun item => strContains (pyLower item.key) "y") [c1, c2] = none := by
    simp [List.findIdx?, hk1y, hk2y]
  rw [hxi, hyi]
  rfl

/-- Witness for C3's amended theorem: the two candidates collected from the
`m_values`/`values` curve satisfy its hypotheses and are paired first-as-X,
second-as-Y. -/
theorem fallback_pairs_known_keys_witness :
    pairCandidates [⟨"unknown", arrAVals, 10, "m_values"⟩, ⟨"unknown", arrBVals, 10, "values"⟩] =
        (arrAVals, arrBVals) ∧
      smart_extract_curve (.obj [("m_values", arrA), ("values", arrB)]) =
        .ok (arrAVals, arrBVals) :=
  fallback_pairs_known_keys ⟨"unknown", arrAVals, 10, "m_values"⟩
    ⟨"unknown", arrBVals, 10, "values"⟩ rfl rfl rfl rfl rfl rfl rfl

/-- Counterexample to C4: an array whose first element is a boolean is
returned unchanged by the Value Normalizer, not mapped to the empty
sequence, because Python booleans satisfy `isinstance(b, int)`. -/
theorem normalizer_bool_counterexample :
    extract_values_from_list [.bool true] = .ok [.bool true] ∧
      (Except.ok [JVal.bool true] : Except PyErr (List JVal)) ≠ .ok [] := by
  refine ⟨rfl, ?_⟩
  intro h
  have : [JVal.bool true] = [] := Except.ok.inj h
  simp at this

/-- C4 as amended: the Value Normalizer returns the empty sequence on empty
input; the array unchanged when the first element is a number or a boolean
(Python booleans are integers); for a first-element object, the projection
of every element through the first of the wrapper fields `V`, `y`, `v`
present in it, a missing field on an individual element defaulting to `0`,
provided every element is an object (a non-object element raises instead —
see the exception-propagation theorem); the empty sequence when the first
element is an object with none of the wrapper fields; and the empty
sequence when the first element is a string, an array or `null`. -/
theorem normalizer_cases :
    (extract_values_from_list [] = .ok []) ∧
    (∀ (q : Rat) (t : List JVal),
      extract_values_from_list (.num q :: t) = .ok (.num q :: t)) ∧
    (∀ (b : Bool) (t : List JVal),
      extract_values_from_list (.bool b :: t) = .ok (.bool b :: t)) ∧
    (∀ (fs : List (String × JVal)) (t : List JVal),
      (dictLookup fs "V").isSome = true →
      (∀ x ∈ JVal.obj fs :: t, isObjB x = true) →
      extract_values_from_list (.obj fs :: t) =
        .ok ((JVal.obj fs :: t).map (fun item => pyGetD item "V"))) ∧
    (∀ (fs : List (String × JVal)) (t : List JVal),
      (dictLookup fs "V").isSome = false → (dictLookup fs "y").isSome = true →
      (∀ x ∈ JVal.obj fs :: t, isObjB x = true) →
      extract_values_from_list (.obj fs :: t) =
        .ok ((JVal.obj fs :: t).map (fun item => pyGetD item "y"))) ∧
    (∀ (fs : List (String × JVal)) (t : List JVal),
      (dictLookup fs "V").isSome = false → (dictLookup fs "y").isSome = false →
      (dictLookup fs "v").isSome = true →
      (∀ x ∈ JVal.obj fs :: t, isObjB x = true) →
      extract_values_from_list (.obj fs :: t) =
        .ok ((JVal.obj fs :: t).map (fun item => pyGetD item "v"))) ∧
    (∀ (fs : List (String × JVal)) (t : List JVal),
      (dictLookup fs "V").isSome = false → (dictLookup fs "y").isSome = false →
      (dictLookup fs "v").isSome = false →
      extract_values_from_list (.obj fs :: t) = .ok []) ∧
    (∀ (s : String) (t : List JVal), extract_values_from_list (.str s :: t) = .ok []) ∧
    (∀ (xs t : List JVal), extract_values_from_list (.arr xs :: t) = .ok []) ∧
    (∀ t : List JVal, extract_values_from_list (.null :: t) = .ok []) := by
  have hmap : ∀ (k : String) (l : List JVal), (∀ x ∈ l, isObjB x = true) →
      l.mapM (fun item => pyGet item k (.num 0)) =
        .ok (l.map (fun item => pyGetD item k)) := by
    intro k l
    induction l with
    | nil => intro _; rfl
    | cons x t ih =>
      intro hall
      have hx : isObjB x = true := hall x (List.mem_cons_self x t)
      have ht : ∀ y ∈ t, isObjB y = true := fun y hy => hall y (List.mem_cons_of_mem x hy)
      match x, hx with
      | .obj gs, _ =>
        rw [List.mapM_cons, ih ht]
        rfl
  refine ⟨rfl, fun q t => rfl, fun b t => by cases b <;> rfl, ?_, ?_, ?_, ?_,
    fun s t => rfl, fun xs t => rfl, fun t => rfl⟩
  · intro fs t hV hall
    show (if (dictLookup fs "V").isSome then _ else _) = _
    rw [if_pos (by simp [hV]), hmap "V" _ hall]
  · intro fs t hV hy hall
    show (if (dictLookup fs "V").isSome then _ else _) = _
    rw [if_neg (by simp [hV]), if_pos (by simp [hy]), hmap "y" _ hall]
  · intro fs t hV hy hv hall
    show (if (dictLookup fs "V").isSome then _ else _) = _
    rw [if_neg (by simp [hV]), if_neg (by simp [hy]), if_pos (by simp [hv]),
      hmap "v" _ hall]
  · intro fs t hV hy hv
    show (if (dictLookup fs "V").isSome then _ else _) = _
    rw [if_neg (by simp [hV]), if_neg (by simp [hy]), if_neg (by simp [hv])]

/-- Witness for C4's amended theorem: `[{"V":1},{"V":2},{"V":3}]` projects
to `[1,2,3]`, `[{"y":5},{"y":6}]` to `[5,6]`, and `["a","b"]` to `[]`. -/
theorem normalizer_cases_witness :
    extract_values_from_list [.obj [("V", jn 1)], .obj [("V", jn 2)], .obj [("V", jn 3)]] =
        .ok [jn 1, jn 2, jn 3] ∧
      extract_values_from_list [.obj [("y", jn 5)], .obj [("y", jn 6)]] = .ok [jn 5, jn 6] ∧
      extract_values_from_list [.str "a", .str "b"] = .ok [] := by
  refine ⟨?_, ?_, normalizer_cases.2.2.2.2.2.2.2.1 "a" [.str "b"]⟩
  · have h := normalizer_cases.2.2.2.1 [("V", jn 1)]
      [.obj [("V", jn 2)], .obj [("V", jn 3)]] rfl (by intro x hx; fin_cases hx <;> rfl)
    exact h.trans (by rfl)
  · have h := normalizer_cases.2.2.2.2.1 [("y", jn 5)] [.obj [("y", jn 6)]] rfl rfl
      (by intro x hx; fin_cases hx <;> rfl)
    exact h.trans (by rfl)

/-- Counterexample to C5: in a file whose synthetic measurement has a good
curve followed by a curve that raises `AttributeError`, the exception is
caught at the file level but the dataset assembled from the first curve is
retained — the file's dataset map is not empty. -/
theorem file_exception_keeps_earlier_datasets :
    parse_pssession (constDecoder goodThenBadRoot) "data.pssession" "x".data =
        [("data-C1", (xVals, yVals))] ∧
      (rootLoop "data.pssession" [goodThenBadRoot] []).2 = some .attributeError ∧
      ([("data-C1", (xVals, yVals))] : Datasets) ≠ [] := by
  refine ⟨rfl, rfl, by simp⟩

/-- C5 as amended: any exception raised in the extraction pipeline is
caught at the file level — `parse_pssession` always returns the datasets
accumulated up to the point of the exception, never re-raises — and
processing continues with the next file.  The file's dataset map is empty
only when the exception precedes the first assembled dataset (here: the
raising curve comes first); datasets assembled earlier in the same file
are retained, and a later file is still processed after an earlier file's
exception. -/
theorem file_exception_absorbed :
    (∀ (d : Decoder) (fileName : String) (content : List Char),
      parse_pssession d fileName content =
        (rootLoop fileName (splitDocuments d content) []).1) ∧
      parse_pssession (constDecoder badThenGoodRoot) "data.pssession" "x".data = [] ∧
      processFiles (constDecoder goodThenBadRoot)
          [("a.pssession", "x".data), ("b.pssession", "x".data)] =
        [("a-C1", (xVals, yVals)), ("b-C1", (xVals, yVals))] :=
  ⟨fun _ _ _ => rfl, rfl, rfl⟩

/-- C6.  The role inferred from an object's `Unit` metadata applies only to
the pairs processed in that object's own iteration: the recursive call into
a child value carries no role (only the unused `context_key`), so the
candidate list obtained for a child subtree is the same whatever role the
ancestor's unit metadata induces.  Two parent objects that differ only in
their `Unit` field (each unit subtree itself yielding no candidates, as
`Symbol`/`BaseQuantity` metadata does) produce identical candidate lists
for the shared child object, even though the inferred roles `r1`, `r2` may
differ. -/
theorem child_subtree_role_independent
    (u1 u2 : List (String × JVal)) (k : String) (gs : List (String × JVal))
    (r1 r2 ck1 ck2 : String)
    (h1 : unitRole [("Unit", .obj u1), (k, .obj gs)] = .ok r1)
    (h2 : unitRole [("Unit", .obj u2), (k, .obj gs)] = .ok r2)
    (hs1 : recursive_search_arrays (.obj u1) "Unit" = .ok [])
    (hs2 : recursive_search_arrays (.obj u2) "Unit" = .ok []) :
    recursive_search_arrays (.obj [("Unit", .obj u1), (k, .obj gs)]) ck1 =
      recursive_search_arrays (.obj [("Unit", .obj u2), (k, .obj gs)]) ck2 := by
  have key : ∀ (u : List (String × JVal)) (r ck : String),
      unitRole [("Unit", JVal.obj u), (k, JVal.obj gs)] = .ok r →
      recursive_search_arrays (JVal.obj u) "Unit" = .ok [] →
      recursive_search_arrays (JVal.obj [("Unit", JVal.obj u), (k, JVal.obj gs)]) ck =
        Except.bind (recursive_search_arrays (JVal.obj gs) k)
          (fun s => .ok ([] ++ [] ++ (s ++ [] ++ []))) := by
    intro u r ck hu hrec
    show Except.bind (unitRole [("Unit", JVal.obj u), (k, JVal.obj gs)])
        (fun ct => searchFields ct [("Unit", JVal.obj u), (k, JVal.obj gs)]) = _
    rw [hu]
    show searchFields r [("Unit", JVal.obj u), (k, JVal.obj gs)] = _
    show Except.bind (recursive_search_arrays (JVal.obj u) "Unit") _ = _
    rw [hrec]
    show Except.bind (searchFields r [(k, JVal.obj gs)]) _ = _
    show Except.bind (Except.bind (recursive_search_arrays (JVal.obj gs) k) _) _ = _
    cases recursive_search_arrays (JVal.obj gs) k <;> rfl
  rw [key u1 r1 ck1 h1 hs1, key u2 r2 ck2 h2 hs2]

/-- Witness for C6: a potential-labelled parent and a current-labelled
parent of the same child object yield the same candidate list. -/
theorem child_subtree_role_independent_witness :
    unitRole [("Unit", .obj [("Symbol", .str "V"), ("BaseQuantity", .str "Potential")]),
        ("data", .obj [("m_values", .arr yVals)])] = .ok "potential" ∧
      unitRole [("Unit", .obj [("Symbol", .str "A"), ("BaseQuantity", .str "Current")]),
        ("data", .obj [("m_values", .arr yVals)])] = .ok "current" ∧
      recursive_search_arrays
          (.obj [("Symbol", .str "V"), ("BaseQuantity", .str "Potential")]) "Unit" = .ok [] ∧
      recursive_search_arrays
          (.obj [("Symbol", .str "A"), ("BaseQuantity", .str "Current")]) "Unit" = .ok [] ∧
      recursive_search_arrays
          (.obj [("Unit", .obj [("Symbol", .str "V"), ("BaseQuantity", .str "Potential")]),
                 ("data", .obj [("m_values", .arr yVals)])]) "" =
        recursive_search_arrays
          (.obj [("Unit", .obj [("Symbol", .str "A"), ("BaseQuantity", .str "Current")]),
                 ("data", .obj [("m_values", .arr yVals)])]) "" :=
  ⟨rfl, rfl, rfl, rfl,
    child_subtree_role_independent
      [("Symbol", .str "V"), ("BaseQuantity", .str "Potential")]
      [("Symbol", .str "A"), ("BaseQuantity", .str "Current")]
      "data" [("m_values", .arr yVals)] "potential" "current" "" ""
      rfl rfl rfl rfl⟩

theorem dictInsert_mem (m : Datasets) (k : String) (v : List JVal × List JVal)
    (e : String × (List JVal × List JVal)) (he : e ∈ dictInsert m k v) :
    e ∈ m ∨ e = (k, v) := by
  induction m with
  | nil =>
    simp only [dictInsert] at he
    right
    exact List.mem_singleton.mp he
  | cons h t ih =>
    simp only [dictInsert] at he
    split at he
    · rcases List.mem_cons.mp he with h' | h'
      · right; exact h'
      · left; exact List.mem_cons_of_mem _ h'
    · rcases List.mem_cons.mp he with h' | h'
      · left; exact h' ▸ List.mem_cons_self _ _
      · rcases ih h' with h'' | h''
        · left; exact List.mem_cons_of_mem _ h''
        · right; exact h''

theorem curveLoop_mem (stemS : String) (title : JVal) (mlen clen : Nat) :
    ∀ (curves : List JVal) (c_idx : Nat) (ds : Datasets)
      (e : String × (List JVal × List JVal)),
      e ∈ (curveLoop stemS title mlen clen curves c_idx ds).1 →
      e ∈ ds ∨ e.2.1.length = e.2.2.length := by
  intro curves
  induction curves with
  | nil =>
    intro c_idx ds e he
    exact Or.inl he
  | cons curve rest ih =>
    intro c_idx ds e he
    simp only [curveLoop] at he
    cases hse : smart_extract_curve curve with
    | error err =>
      rw [hse] at he
      exact Or.inl he
    | ok xy =>
      rw [hse] at he
      obtain ⟨x, y⟩ := xy
      simp only at he
      rcases ih (c_idx + 1) _ e he with h | h
      · by_cases hcond : x.length > 0 && y.length > 0
        · rw [if_pos hcond] at h
          rcases dictInsert_mem _ _ _ _ h with h' | h'
          · exact Or.inl h'
          · right
            rw [h']
            simp only [List.length_take]
            omega
        · rw [if_neg hcond] at h
          exact Or.inl h
      · exact Or.inr h

theorem measLoop_mem (stemS : String) (mlen : Nat) :
    ∀ (ms : List JVal) (ds : Datasets) (e : String × (List JVal × List JVal)),
      e ∈ (measLoop stemS mlen ms ds).1 →
      e ∈ ds ∨ e.2.1.length = e.2.2.length := by
  intro ms
  induction ms with
  | nil =>
    intro ds e he
    exact Or.inl he
  | cons m rest ih =>
    intro ds e he
    cases m with
    | obj mfs =>
      simp only [measLoop] at he
      cases hci : pyIter ((dictLookup mfs "curves").getD
          ((dictLookup mfs "Curves").getD (.arr []))) with
      | error err =>
        rw [hci] at he
        exact Or.inl he
      | ok curves =>
        rw [hci] at he
        dsimp only at he
        cases hcl : curveLoop stemS
            ((dictLookup mfs "title").getD ((dictLookup mfs "Title").getD (.str "")))
            mlen curves.length curves 0 ds with
        | mk ds' oe =>
          have hds' : ∀ x, x ∈ ds' → x ∈ ds ∨ x.2.1.length = x.2.2.length := by
            intro x hx
            exact curveLoop_mem stemS _ mlen curves.length curves 0 ds x
              (by rw [hcl]; exact hx)
          rw [hcl] at he
          cases oe with
          | some err =>
            simp only at he
            exact hds' e he
          | none =>
            simp only at he
            rcases ih ds' e he with h | h
            · exact hds' e h
            · exact Or.inr h
    | null => exact ih ds e he
    | bool b => exact ih ds e he
    | num q => exact ih ds e he
    | str s => exact ih ds e he
    | arr xs => exact ih ds e he

theorem rootLoop_mem (fileName : String) :
    ∀ (roots : List JVal) (ds : Datasets) (e : String × (List JVal × List JVal)),
      e ∈ (rootLoop fileName roots ds).1 →
      e ∈ ds ∨ e.2.1.length = e.2.2.length := by
  intro roots
  induction roots with
  | nil =>
    intro ds e he
    exact Or.inl he
  | cons r rest ih =>
    intro ds e he
    cases r with
    | obj rfs =>
      simp only [rootLoop] at he
      cases hms : measurementsOf rfs with
      | error err =>
        rw [hms] at he
        exact Or.inl he
      | ok ms =>
        rw [hms] at he
        dsimp only at he
        cases hml : measLoop (fileStem fileName) ms.length ms ds with
        | mk ds' oe =>
          have hds' : ∀ x, x ∈ ds' → x ∈ ds ∨ x.2.1.length = x.2.2.length := by
            intro x hx
            exact measLoop_mem (fileStem fileName) ms.length ms ds x (by rw [hml]; exact hx)
          rw [hml] at he
          cases oe with
          | some err =>
            simp only at he
            exact hds' e he
          | none =>
            simp only at he
            rcases ih ds' e he with h | h
            · exact hds' e h
            · exact Or.inr h
    | null => exact ih ds e he
    | bool b => exact ih ds e he
    | num q => exact ih ds e he
    | str s => exact ih ds e he
    | arr xs => exact ih ds e he

/-- C7.  Every Curve Dataset placed in the output mapping of
`parse_pssession` has potential and current sequences of equal length:
whenever pairing succeeds, both sequences are truncated to the shorter of
the two before the dataset is created. -/
theorem dataset_lengths_equal (d : Decoder) (fileName : String) (content : List Char)
    (name : String) (pc : List JVal × List JVal)
    (hmem : (name, pc) ∈ parse_pssession d fileName content) :
    pc.1.length = pc.2.length := by
  rcases rootLoop_mem fileName (splitDocuments d content) [] (name, pc) hmem with h | h
  · cases h
  · exact h

/-- Witness for C7: the dataset extracted from the `run1.pssession` example
is in the output mapping and its two sequences have equal length. -/
theorem dataset_lengths_equal_witness :
    (("run1", (xVals, yVals)) ∈
        parse_pssession (constDecoder run1Root) "run1.pssession" "x".data) ∧
      xVals.length = yVals.length := by
  have hmem : ("run1", (xVals, yVals)) ∈
      parse_pssession (constDecoder run1Root) "run1.pssession" "x".data := by
    show ("run1", (xVals, yVals)) ∈ [("run1", (xVals, yVals))]
    exact List.mem_singleton_self _
  exact ⟨hmem, dataset_lengths_equal _ _ _ _ _ hmem⟩

/-- C8.  The file `run1.pssession` with one measurement titled `CV1`
holding one successfully pairing curve yields exactly one dataset named
`run1`, with no title suffix and no curve-index suffix; and in general the
assembled name is the file stem with `-{title}` appended exactly when the
measurement list has more than one entry and `-C{c_idx+1}` appended exactly
when the curve list has more than one entry. -/
theorem dataset_naming :
    parse_pssession (constDecoder run1Root) "run1.pssession" "x".data =
        [("run1", (xVals, yVals))] ∧
      (∀ (stemS : String) (title : JVal) (mlen clen c_idx : Nat),
        buildName stemS title mlen clen c_idx =
          stemS ++ (if mlen > 1 then "-" ++ pyStr title else "") ++
            (if clen > 1 then "-C" ++ toString (c_idx + 1) else "")) := by
  refine ⟨rfl, ?_⟩
  intro stemS title mlen clen c_idx
  unfold buildName
  by_cases hm : mlen > 1 <;> by_cases hc : clen > 1 <;>
    simp [hm, hc, String.append_assoc]

/-- C9.  A root object with two measurements of two successfully pairing
curves each yields four datasets with pairwise distinct names, each name
containing the measurement title and carrying a `-C{n}` curve suffix. -/
theorem four_datasets_unique_names :
    parse_pssession (constDecoder root4) "f.pssession" "x".data =
        [("f-M1-C1", (xVals, yVals)), ("f-M1-C2", (arrAVals, arrBVals)),
         ("f-M2-C1", (xVals, yVals)), ("f-M2-C2", (arrAVals, arrBVals))] ∧
      (["f-M1-C1", "f-M1-C2", "f-M2-C1", "f-M2-C2"] : List String).Nodup ∧
      strContains "f-M1-C1" "M1" = true ∧ strContains "f-M1-C2" "M1" = true ∧
      strContains "f-M2-C1" "M2" = true ∧ strContains "f-M2-C2" "M2" = true ∧
      List.isSuffixOf ("-C1".data) ("f-M1-C1".data) = true ∧
      List.isSuffixOf ("-C2".data) ("f-M1-C2".data) = true ∧
      List.isSuffixOf ("-C1".data) ("f-M2-C1".data) = true ∧
      List.isSuffixOf ("-C2".data) ("f-M2-C2".data) = true :=
  ⟨rfl, by decide, rfl, rfl, rfl, rfl, rfl, rfl, rfl, rfl⟩

/-- C10.  On an array whose first element is an object carrying the wrapper
field `V` but whose last element is a string, the Value Normalizer raises
`AttributeError` (the non-object element is neither projected nor defaulted
to 0); the exception propagates unchanged out of the collector and the
pairing engine and is absorbed only at the enclosing file level, where the
file yields its datasets-so-far (here none). -/
theorem normalizer_exception_propagates :
    extract_values_from_list mixed7 = .error .attributeError ∧
      recursive_search_arrays badCurve "" = .error .attributeError ∧
      smart_extract_curve badCurve = .error .attributeError ∧
      parse_pssession (constDecoder (.obj [("curves", .arr [badCurve])]))
          "f.pssession" "x".data = [] ∧
      (rootLoop "f.pssession" [.obj [("curves", .arr [badCurve])]] []).2 =
        some .attributeError :=
  ⟨rfl, rfl, rfl, rfl, rfl⟩

end CvPlot
